import Mathlib

/-!
Shallow embedding of `src/build_tools/update_deps.py` (OSS Mozc build
dependency updater) and proofs about its observable behaviour.

The script is single-threaded and linear, so we model it as pure functions
from an explicit filesystem state (`World`) to a new state together with a
trace of observable effects (`Event`) and an optional fatal error
(`DLError`, the `RuntimeError`s raised by `download`).

External collaborators are inputs of the model:
  * the SHA-256 function (`hashlib.sha256`) is an arbitrary parameter
    `sha : Bytes → String`, since only comparisons of its results matter;
  * the bytes served by the network for a URL are a parameter
    (`net : Bytes`, or `String → Bytes` keyed by URL at the pipeline level);
  * the operating-system identity is a `Platform` parameter
    (`os.name == 'nt'` / `os.uname()[0] == 'Darwin'`).

Terminal progress lines (`ProgressPrinter`) are rate-limited, tty-dependent
stdout output inside the real download loop only; no claim depends on them
and they are not part of the event trace.  `print` events model the real
`print(...)` calls of the script.
-/

/-- File contents as a list of byte values. -/
abbrev Bytes := List Nat

/-- Embeds the `ArchiveInfo` dataclass: URL, expected byte size and expected
SHA-256 hex digest of a third-party archive. -/
structure ArchiveInfo where
  url : String
  size : Nat
  sha256 : String
  deriving DecidableEq, Repr

/-- Scan a character list, keeping the (reversed) characters seen since the
most recent `'/'`; at the end return them in order.  For a single-character
separator this computes exactly the last element of Python's
`str.split('/')` (the suffix after the last slash; the whole string when
there is none, empty on a trailing slash). -/
def lastSegmentAux : List Char → List Char → List Char
  | [], acc => acc.reverse
  | c :: rest, acc =>
    if c = '/' then lastSegmentAux rest [] else lastSegmentAux rest (c :: acc)

namespace ArchiveInfo

/-- Embeds the `filename` property: `self.url.split('/')[-1]`, i.e. the
last `'/'`-separated segment of the URL. -/
def filename (a : ArchiveInfo) : String :=
  String.mk (lastSegmentAux a.url.data [])

/-- Embeds `__hash__`: `hash(self.sha256)`.  Python's string hash is an
interpreter detail, so it is a parameter `strHash`. -/
def pyHash (strHash : String → Int) (a : ArchiveInfo) : Int := strHash a.sha256

end ArchiveInfo

/-- Embeds the `__eq__` generated by `@dataclasses.dataclass` (default
`eq=True`): field-wise comparison of `(url, size, sha256)`.  The manual
`__hash__` in the class body does not replace the generated `__eq__`. -/
def archiveEq (a b : ArchiveInfo) : Bool :=
  a.url == b.url && a.size == b.size && a.sha256 == b.sha256

/-- Embeds Python list membership `x in l` as used in `main`
(`NINJA_WIN in archives`): true iff some element compares equal under
`__eq__`.  (CPython also short-circuits on object identity `is`, which can
only make more pairs equal when the very same record occurs; for distinct
records the result is exactly `__eq__`.) -/
def pyListMem (x : ArchiveInfo) (l : List ArchiveInfo) : Bool :=
  l.any (fun y => archiveEq y x)

/-- The `QT6` registry constant. -/
def QT6 : ArchiveInfo :=
  { url := "https://download.qt.io/archive/qt/6.8/6.8.0/submodules/qtbase-everywhere-src-6.8.0.tar.xz"
    size := 49819628
    sha256 := "1bad481710aa27f872de6c9f72651f89a6107f0077003d0ebfcc9fd15cba3c75" }

/-- The `NINJA_MAC` registry constant. -/
def NINJA_MAC : ArchiveInfo :=
  { url := "https://github.com/ninja-build/ninja/releases/download/v1.11.0/ninja-mac.zip"
    size := 277298
    sha256 := "21915277db59756bfc61f6f281c1f5e3897760b63776fd3d360f77dd7364137f" }

/-- The `NINJA_WIN` registry constant. -/
def NINJA_WIN : ArchiveInfo :=
  { url := "https://github.com/ninja-build/ninja/releases/download/v1.11.0/ninja-win.zip"
    size := 285411
    sha256 := "d0ee3da143211aa447e750085876c9b9d7bcdd637ab5b2c5b41349c617f22f3b" }

/-- Operating-system identity, as classified by `is_windows` / `is_mac`. -/
inductive Platform where
  | windows
  | mac
  | other
  deriving DecidableEq, Repr

/-- Embeds `is_windows()`: `os.name == 'nt'`. -/
def is_windows : Platform → Bool
  | .windows => true
  | _ => false

/-- Embeds `is_mac()`: `os.name == 'posix' and os.uname()[0] == 'Darwin'`. -/
def is_mac : Platform → Bool
  | .mac => true
  | _ => false

/-- Observable effects of one run, in program order. -/
inductive Event where
  /-- `requests.get(url, stream=True, ...)`: a network access. -/
  | netGet (url : String)
  /-- `get_sha256(path)`: reading a cache file to hash it (a read, not a
  mutation). -/
  | hashFile (name : String)
  /-- `path.unlink()`: deleting a cache file. -/
  | unlink (name : String)
  /-- `CACHE_DIR.mkdir(parents=True, exist_ok=True)`. -/
  | mkdirCache
  /-- `open(path, 'wb')` plus the chunk-write loop: (re)writing a cache file. -/
  | writeCacheFile (name : String)
  /-- A `print(...)` call. -/
  | print (msg : String)
  /-- A subprocess invocation (`subprocess.run` / `subprocess.Popen`). -/
  | runProc (cmd : String)
  /-- `zipfile.ZipFile(src)` + `z.extract(exe, path=dest)`. -/
  | zipExtract (entry : String) (srcName : String)
  /-- `ninja.chmod(st_mode | stat.S_IXUSR)`. -/
  | chmodExec (name : String)
  deriving DecidableEq, Repr

/-- The `RuntimeError`s raised by `download`. -/
inductive DLError where
  | sizeMismatch (expected actual : Nat)
  | hashMismatch (expected actual : String)
  deriving DecidableEq, Repr

/-- The filesystem state the script touches: the flat cache directory
(`third_party_cache`, one file per archive filename) and the extraction
destination `third_party/ninja` (`none` = directory absent, `some l` =
directory present with entry names `l`). -/
structure World where
  cache : List (String × Bytes)
  ninjaDir : Option (List String)
  deriving DecidableEq, Repr

/-- Content of the cache file with the given name, if it exists. -/
def lookupCache (w : World) (name : String) : Option Bytes :=
  (w.cache.find? (fun p => p.1 == name)).map (·.2)

/-- Create or overwrite a cache file. -/
def setCache (w : World) (name : String) (bs : Bytes) : World :=
  { w with cache := (name, bs) :: w.cache.filter (fun p => p.1 != name) }

/-- Delete a cache file (`path.unlink()`). -/
def removeCache (w : World) (name : String) : World :=
  { w with cache := w.cache.filter (fun p => p.1 != name) }

/-- Rendering of `CACHE_DIR.joinpath(archive.filename)` relative to the
source tree root (the absolute prefix is host-specific). -/
def cachePathStr (a : ArchiveInfo) : String :=
  "third_party_cache/" ++ a.filename

/-- The message of `print(f'dryrun: Verification failed. removing {path}')`. -/
def removalMsg (a : ArchiveInfo) : String :=
  "dryrun: Verification failed. removing " ++ cachePathStr a

/-- The message of `print(f'Download {archive.url} to {path}')`. -/
def downloadMsg (a : ArchiveInfo) : String :=
  "Download " ++ a.url ++ " to " ++ cachePathStr a

/-- Embeds the tail of `download` from the point where no (valid or stale)
cache file is in the way: the `if dryrun: print/return` guard, then
`CACHE_DIR.mkdir`, the streaming `requests.get` whose chunks are written to
`path` while being fed to the running hasher (`saved` ends up as the total
stream length `net.length`), then the size check and, only after it passed,
the hash check.  `get_sha256` on an existing cache file is modelled by
applying `sha` to its content, which is what `hashlib` computes from the
file's bytes. -/
def fetchPhase (sha : Bytes → String) (net : Bytes) (a : ArchiveInfo)
    (dryrun : Bool) (w : World) (tr : List Event) :
    World × List Event × Option DLError :=
  if dryrun then
    (w, tr ++ [Event.print (downloadMsg a)], none)
  else
    let w1 := setCache w a.filename net
    let tr1 := tr ++ [Event.mkdirCache, Event.netGet a.url,
      Event.writeCacheFile a.filename]
    if net.length ≠ a.size then
      (w1, tr1, some (DLError.sizeMismatch a.size net.length))
    else if sha net ≠ a.sha256 then
      (w1, tr1, some (DLError.hashMismatch a.sha256 (sha net)))
    else
      (w1, tr1, none)

/-- Embeds the stale-cache branch of `download` (the `else:` of the
validity check): under dry-run only report the intended deletion, otherwise
`path.unlink()`; then proceed to the download phase. -/
def stalePath (sha : Bytes → String) (net : Bytes) (a : ArchiveInfo)
    (dryrun : Bool) (w : World) (tr : List Event) :
    World × List Event × Option DLError :=
  if dryrun then
    fetchPhase sha net a dryrun w (tr ++ [Event.print (removalMsg a)])
  else
    fetchPhase sha net a dryrun (removeCache w a.filename)
      (tr ++ [Event.unlink a.filename])

/-- Embeds `download(archive, dryrun)`.  If the cache file exists, its size
is compared first and — Python's `and` short-circuits — `get_sha256` runs
only when the size matched; if both match the function returns at once
(cache hit).  Returns the new world, the effect trace and the raised
`RuntimeError` if any. -/
def download (sha : Bytes → String) (net : Bytes) (a : ArchiveInfo)
    (dryrun : Bool) (w : World) : World × List Event × Option DLError :=
  match lookupCache w a.filename with
  | some content =>
    if content.length = a.size then
      if sha content = a.sha256 then
        (w, [Event.hashFile a.filename], none)
      else
        stalePath sha net a dryrun w [Event.hashFile a.filename]
    else
      stalePath sha net a dryrun w []
  | none =>
    fetchPhase sha net a dryrun w []

/-- Set-like insertion of a directory entry: `z.extract(exe, path=dest)`
creates `dest` if needed and creates or overwrites the single member `exe`,
leaving every other entry of `dest` in place. -/
def insertEntry (x : String) (l : List String) : List String :=
  if l.contains x then l else l ++ [x]

/-- The message of `print(f"dryrun: shutil.rmtree(r'{dest}')")`. -/
def rmtreeMsg : String :=
  "dryrun: shutil.rmtree(third_party/ninja)"

/-- The message of `print(f'dryrun: Extracting {exe} from {src} into {dest}')`. -/
def extractMsg (exe : String) (a : ArchiveInfo) : String :=
  "dryrun: Extracting " ++ exe ++ " from " ++ cachePathStr a
    ++ " into third_party/ninja"

/-- Embeds the platform-specific body of `extract_ninja` once `archive` and
`exe` are chosen.  Under dry-run: report the intended `shutil.rmtree` when
`dest` exists, report the intended extraction, return.  Otherwise: extract
the single member `exe` of the zip in the cache into `dest` (note: the real
path performs no removal of `dest`), then on Mac set the owner-execute bit
on the extracted file. -/
def extractImpl (p : Platform) (archive : ArchiveInfo) (exe : String)
    (dryrun : Bool) (w : World) : World × List Event :=
  if dryrun then
    (w, (if w.ninjaDir.isSome then [Event.print rmtreeMsg] else [])
      ++ [Event.print (extractMsg exe archive)])
  else
    let entries := w.ninjaDir.getD []
    let w1 := { w with ninjaDir := some (insertEntry exe entries) }
    let tr := [Event.zipExtract exe archive.filename]
      ++ (if is_mac p then [Event.chmodExec exe] else [])
    (w1, tr)

/-- Embeds `extract_ninja(dryrun)`: on Mac extract `ninja` from
`NINJA_MAC`, on Windows extract `ninja.exe` from `NINJA_WIN`, on every
other platform return immediately (the early `return`; no message, no
filesystem access). -/
def extract_ninja (p : Platform) (dryrun : Bool) (w : World) :
    World × List Event :=
  match p with
  | .mac => extractImpl p NINJA_MAC "ninja" dryrun w
  | .windows => extractImpl p NINJA_WIN "ninja.exe" dryrun w
  | .other => (w, [])

/-- Embeds `update_submodules(dryrun)`: print the intended command under
dry-run, otherwise `subprocess.run('git submodule update --init
--recursive', shell=True, check=True)`.  The subprocess touches no state of
`World`, so only the trace is produced. -/
def update_submodules (dryrun : Bool) : List Event :=
  if dryrun then
    [Event.print
      "dryrun: subprocess.run(git submodule update --init --recursive, shell=True, check=True)"]
  else
    [Event.runProc "git submodule update --init --recursive"]

/-- Embeds `restore_dotnet_tools(dryrun)`: print the intended command under
dry-run, otherwise `exec_command(['dotnet', 'tool', 'restore'], cwd=...)`. -/
def restore_dotnet_tools (dryrun : Bool) : List Event :=
  if dryrun then
    [Event.print "dryrun: exec_command(dotnet tool restore, cwd=src)"]
  else
    [Event.runProc "dotnet tool restore"]

/-- The boolean command-line flags of `main` (all default false). -/
structure Flags where
  dryrun : Bool
  noninja : Bool
  noqt : Bool
  nowix : Bool
  nosubmodules : Bool
  cache_only : Bool
  deriving DecidableEq, Repr

/-- Embeds the archive-selection block of `main`: `QT6` unless `--noqt` and
the platform is Windows or Mac, then the platform's ninja archive unless
`--noninja`. -/
def selectArchives (p : Platform) (fl : Flags) : List ArchiveInfo :=
  (if !fl.noqt && (is_windows p || is_mac p) then [QT6] else [])
    ++ (if !fl.noninja then
          (if is_mac p then [NINJA_MAC]
           else if is_windows p then [NINJA_WIN]
           else [])
        else [])

/-- Embeds the sequential loop `for archive in archives: download(...)`.
An unhandled `RuntimeError` aborts the loop (and the whole run), so the
traversal stops at the first error.  `net` maps each URL to the byte stream
the network serves for it. -/
def downloadList (sha : Bytes → String) (net : String → Bytes)
    (as : List ArchiveInfo) (dryrun : Bool) (w : World) :
    World × List Event × Option DLError :=
  match as with
  | [] => (w, [], none)
  | a :: rest =>
    match download sha (net a.url) a dryrun w with
    | (w1, tr1, some e) => (w1, tr1, some e)
    | (w1, tr1, none) =>
      match downloadList sha net rest dryrun w1 with
      | (w2, tr2, e2) => (w2, tr1 ++ tr2, e2)

/-- Embeds `main` after flag parsing: select the archives, download each in
order (aborting on the first `RuntimeError`), stop right there when
`--cache_only`; otherwise run `restore_dotnet_tools` on Windows unless
`--nowix`, run `extract_ninja` when a ninja archive was selected (Python
list membership, i.e. dataclass `__eq__`), and `update_submodules` unless
`--nosubmodules`. -/
def mainRun (sha : Bytes → String) (net : String → Bytes) (p : Platform)
    (fl : Flags) (w : World) : World × List Event × Option DLError :=
  let archives := selectArchives p fl
  match downloadList sha net archives fl.dryrun w with
  | (w1, tr1, some e) => (w1, tr1, some e)
  | (w1, tr1, none) =>
    if fl.cache_only then
      (w1, tr1, none)
    else
      let tr2 := if !fl.nowix && is_windows p then
          restore_dotnet_tools fl.dryrun else []
      let er := if pyListMem NINJA_WIN archives || pyListMem NINJA_MAC archives
        then extract_ninja p fl.dryrun w1 else (w1, [])
      let tr4 := if !fl.nosubmodules then update_submodules fl.dryrun else []
      (er.1, tr1 ++ tr2 ++ er.2 ++ tr4, none)

/-- True for events that neither touch the network nor mutate the
filesystem nor start a subprocess: `print` output and the read-only
`get_sha256` file read. -/
def isObservationOnly : Event → Bool
  | .print _ => true
  | .hashFile _ => true
  | _ => false

/-- True exactly for `print` events. -/
def isPrint : Event → Bool
  | .print _ => true
  | _ => false

/-- Number of `print` messages in a trace. -/
def countPrints (tr : List Event) : Nat := (tr.filter isPrint).length

/-- Modelled from the spec: the number of actions a non-dry-run
`ensure_cached(A)` would take for one archive, per section 4.2 — nothing on
a cache hit, a deletion plus a download for a stale entry, a download alone
when no cache file exists. -/
def intendedArchiveActions (sha : Bytes → String) (a : ArchiveInfo)
    (w : World) : Nat :=
  match lookupCache w a.filename with
  | some c => if c.length = a.size ∧ sha c = a.sha256 then 0 else 2
  | none => 1

/-- Sum of `intendedArchiveActions` over a selection of archives (the
dry-run cache checks mutate nothing, so each archive is judged against the
same initial world). -/
def sumIntended (sha : Bytes → String) (as : List ArchiveInfo)
    (w : World) : Nat :=
  match as with
  | [] => 0
  | a :: rest => intendedArchiveActions sha a w + sumIntended sha rest w

/-- Modelled from the spec: the number of actions a non-dry-run extraction
would take, per sections 4.3 and 6 — remove the pre-existing destination
(when present) and extract the tool entry; zero on unsupported platforms. -/
def intendedExtractActions (p : Platform) (w : World) : Nat :=
  match p with
  | .other => 0
  | _ => (if w.ninjaDir.isSome then 1 else 0) + 1

/-- Modelled from the spec: the total number of actions the pipeline would
take for the given flags, platform and initial state, per section 4.5 —
the per-archive cache actions, then (unless `--cache_only`) the toolchain
restore on Windows, the extraction when a ninja archive was selected, and
the submodule sync. -/
def intendedActions (sha : Bytes → String) (p : Platform) (fl : Flags)
    (w : World) : Nat :=
  let archives := selectArchives p fl
  let d := sumIntended sha archives w
  if fl.cache_only then d
  else
    d + (if !fl.nowix && is_windows p then 1 else 0)
      + (if pyListMem NINJA_WIN archives || pyListMem NINJA_MAC archives
          then intendedExtractActions p w else 0)
      + (if !fl.nosubmodules then 1 else 0)

/-- The trace a dry-run `download` produces, by the cache state. -/
def dryDownloadTrace (sha : Bytes → String) (a : ArchiveInfo)
    (w : World) : List Event :=
  match lookupCache w a.filename with
  | some c =>
    if c.length = a.size then
      if sha c = a.sha256 then [Event.hashFile a.filename]
      else [Event.hashFile a.filename, Event.print (removalMsg a),
        Event.print (downloadMsg a)]
    else [Event.print (removalMsg a), Event.print (downloadMsg a)]
  | none => [Event.print (downloadMsg a)]

theorem download_dryrun (sha : Bytes → String) (net : Bytes)
    (a : ArchiveInfo) (w : World) :
    download sha net a true w = (w, dryDownloadTrace sha a w, none) := by
  unfold download dryDownloadTrace stalePath fetchPhase
  cases lookupCache w a.filename with
  | none => simp
  | some c =>
    by_cases h1 : c.length = a.size <;> by_cases h2 : sha c = a.sha256 <;>
      simp [h1, h2]

theorem dryDownloadTrace_observationOnly (sha : Bytes → String)
    (a : ArchiveInfo) (w : World) :
    (dryDownloadTrace sha a w).all isObservationOnly = true := by
  unfold dryDownloadTrace
  cases lookupCache w a.filename with
  | none => simp [isObservationOnly]
  | some c =>
    by_cases h1 : c.length = a.size <;> by_cases h2 : sha c = a.sha256 <;>
      simp [h1, h2, isObservationOnly]

theorem countPrints_dryDownloadTrace (sha : Bytes → String)
    (a : ArchiveInfo) (w : World) :
    countPrints (dryDownloadTrace sha a w) = intendedArchiveActions sha a w := by
  unfold dryDownloadTrace intendedArchiveActions countPrints
  cases lookupCache w a.filename with
  | none => simp [isPrint]
  | some c =>
    by_cases h1 : c.length = a.size <;> by_cases h2 : sha c = a.sha256 <;>
      simp [h1, h2, isPrint]

/-- Concatenated dry-run traces of a list of downloads (each judged
against the same world, which dry-run never changes). -/
def dryTraces (sha : Bytes → String) (as : List ArchiveInfo)
    (w : World) : List Event :=
  match as with
  | [] => []
  | a :: rest => dryDownloadTrace sha a w ++ dryTraces sha rest w

theorem downloadList_dryrun (sha : Bytes → String) (net : String → Bytes)
    (as : List ArchiveInfo) (w : World) :
    downloadList sha net as true w = (w, dryTraces sha as w, none) := by
  induction as with
  | nil => rfl
  | cons a rest ih =>
    unfold downloadList dryTraces
    rw [download_dryrun]
    simp [ih]

theorem countPrints_append (t1 t2 : List Event) :
    countPrints (t1 ++ t2) = countPrints t1 + countPrints t2 := by
  simp [countPrints, List.filter_append]

theorem countPrints_dryTraces (sha : Bytes → String) (as : List ArchiveInfo)
    (w : World) :
    countPrints (dryTraces sha as w) = sumIntended sha as w := by
  induction as with
  | nil => rfl
  | cons a rest ih =>
    unfold dryTraces sumIntended
    rw [countPrints_append, countPrints_dryDownloadTrace, ih]

theorem dryTraces_observationOnly (sha : Bytes → String)
    (as : List ArchiveInfo) (w : World) :
    (dryTraces sha as w).all isObservationOnly = true := by
  induction as with
  | nil => rfl
  | cons a rest ih =>
    unfold dryTraces
    rw [List.all_append, dryDownloadTrace_observationOnly, ih]
    rfl

theorem extract_ninja_dryrun_world (p : Platform) (w : World) :
    (extract_ninja p true w).1 = w := by
  cases p <;> simp [extract_ninja, extractImpl]

theorem extract_ninja_dryrun_observationOnly (p : Platform) (w : World) :
    (extract_ninja p true w).2.all isObservationOnly = true := by
  cases p <;> cases h : w.ninjaDir <;>
    simp [extract_ninja, extractImpl, h, isObservationOnly]

theorem countPrints_extract_ninja_dryrun (p : Platform) (w : World) :
    countPrints (extract_ninja p true w).2 = intendedExtractActions p w := by
  cases p <;> cases h : w.ninjaDir <;>
    simp [extract_ninja, extractImpl, h, intendedExtractActions,
      countPrints, isPrint]

/-- The full trace a dry-run pipeline produces. -/
def dryMainTrace (sha : Bytes → String) (p : Platform) (fl : Flags)
    (w : World) : List Event :=
  let archives := selectArchives p fl
  let t1 := dryTraces sha archives w
  if fl.cache_only then t1
  else
    t1 ++ (if !fl.nowix && is_windows p then restore_dotnet_tools true else [])
      ++ (if pyListMem NINJA_WIN archives || pyListMem NINJA_MAC archives
          then (extract_ninja p true w).2 else [])
      ++ (if !fl.nosubmodules then update_submodules true else [])

theorem mainRun_dryrun (sha : Bytes → String) (net : String → Bytes)
    (p : Platform) (fl : Flags) (w : World) (hd : fl.dryrun = true) :
    mainRun sha net p fl w = (w, dryMainTrace sha p fl w, none) := by
  simp only [mainRun, dryMainTrace, hd]
  rw [downloadList_dryrun]
  by_cases hc : fl.cache_only
  · simp [hc]
  · simp only [hc, if_false, Bool.false_eq_true]
    by_cases he : pyListMem NINJA_WIN (selectArchives p fl)
        || pyListMem NINJA_MAC (selectArchives p fl)
    · simp [he, extract_ninja_dryrun_world]
    · simp [he]

theorem lookup_setCache (w : World) (name : String) (bs : Bytes) :
    lookupCache (setCache w name bs) name = some bs := by
  simp [lookupCache, setCache]

theorem fetchPhase_false (sha : Bytes → String) (net : Bytes)
    (a : ArchiveInfo) (w : World) (tr : List Event) :
    fetchPhase sha net a false w tr =
      (setCache w a.filename net,
       tr ++ [Event.mkdirCache, Event.netGet a.url,
         Event.writeCacheFile a.filename],
       if net.length ≠ a.size then
         some (DLError.sizeMismatch a.size net.length)
       else if sha net ≠ a.sha256 then
         some (DLError.hashMismatch a.sha256 (sha net))
       else none) := by
  simp only [fetchPhase, Bool.false_eq_true, if_false]
  by_cases hs : net.length = a.size
  · by_cases hh : sha net = a.sha256 <;> simp [hs, hh]
  · simp [hs]

/-- Every run of `download` is either a no-download run (dry run or cache
hit: the world is unchanged, no error, and the trace is prints and file
reads only) or a real fetch: execution of the download phase on some world
with some prefix trace that contains no network access. -/
theorem download_shape (sha : Bytes → String) (net : Bytes)
    (a : ArchiveInfo) (dryrun : Bool) (w : World) :
    (∃ tr, download sha net a dryrun w = (w, tr, none) ∧
      tr.all isObservationOnly = true) ∨
    (∃ w0 tr0, download sha net a dryrun w = fetchPhase sha net a false w0 tr0 ∧
      Event.netGet a.url ∉ tr0) := by
  cases dryrun with
  | true =>
    left
    exact ⟨dryDownloadTrace sha a w, download_dryrun sha net a w,
      dryDownloadTrace_observationOnly sha a w⟩
  | false =>
    unfold download stalePath
    cases h : lookupCache w a.filename with
    | none =>
      right
      exact ⟨w, [], rfl, by simp⟩
    | some c =>
      by_cases h1 : c.length = a.size
      · by_cases h2 : sha c = a.sha256
        · left
          refine ⟨[Event.hashFile a.filename], ?_, by simp [isObservationOnly]⟩
          simp [h1, h2]
        · right
          refine ⟨removeCache w a.filename,
            [Event.hashFile a.filename, Event.unlink a.filename], ?_, by simp⟩
          simp [h1, h2]
      · right
        refine ⟨removeCache w a.filename, [Event.unlink a.filename], ?_, by simp⟩
        simp [h1]

/-- C1: for every archive whose cache file exists but has a wrong size or a
wrong SHA-256, a non-dry-run `download` deletes the stale file and performs
the network download, and whenever it returns without an error the cache
entry afterwards is exactly the downloaded stream, whose length equals the
expected size and whose SHA-256 equals the expected hash. -/
theorem c1_stale_cache_deleted_and_redownloaded (sha : Bytes → String)
    (net : Bytes) (a : ArchiveInfo) (w : World) (c : Bytes)
    (hc : lookupCache w a.filename = some c)
    (hstale : c.length ≠ a.size ∨ sha c ≠ a.sha256) :
    Event.unlink a.filename ∈ (download sha net a false w).2.1 ∧
    Event.netGet a.url ∈ (download sha net a false w).2.1 ∧
    ((download sha net a false w).2.2 = none →
      lookupCache (download sha net a false w).1 a.filename = some net ∧
      net.length = a.size ∧ sha net = a.sha256) := by
  have hdl : download sha net a false w =
      fetchPhase sha net a false (removeCache w a.filename)
        ((if c.length = a.size then [Event.hashFile a.filename] else [])
          ++ [Event.unlink a.filename]) := by
    unfold download stalePath
    by_cases h1 : c.length = a.size
    · have h2 : sha c ≠ a.sha256 := by
        rcases hstale with h | h
        · exact absurd h1 h
        · exact h
      simp [hc, h1, h2]
    · simp [hc, h1]
  rw [hdl, fetchPhase_false]
  refine ⟨by simp, by simp, fun he => ?_⟩
  by_cases hs : net.length = a.size
  · by_cases hh : sha net = a.sha256
    · exact ⟨lookup_setCache .., hs, hh⟩
    · simp [hs, hh] at he
  · simp [hs] at he

/-- C2: for every archive whose cache file exists with the expected size
and the expected SHA-256, `download` returns at once with the world
unchanged (no network access, no filesystem mutation), its only effect
being the read that hashed the cached file; this holds for both values of
the dry-run flag. -/
theorem c2_cache_hit_no_effect (sha : Bytes → String) (net : Bytes)
    (a : ArchiveInfo) (dryrun : Bool) (w : World) (c : Bytes)
    (hc : lookupCache w a.filename = some c)
    (hsz : c.length = a.size) (hh : sha c = a.sha256) :
    download sha net a dryrun w = (w, [Event.hashFile a.filename], none) := by
  unfold download
  simp [hc, hsz, hh]

/-- C3: whenever `download` performed the network fetch and the stream
length differs from the expected size, the result is the size-mismatch
error (never the hash-mismatch error); and a hash-mismatch error is only
ever produced when the stream length equalled the expected size. -/
theorem c3_size_check_precedes_hash_check (sha : Bytes → String)
    (net : Bytes) (a : ArchiveInfo) (dryrun : Bool) (w : World) :
    (Event.netGet a.url ∈ (download sha net a dryrun w).2.1 →
      net.length ≠ a.size →
      (download sha net a dryrun w).2.2 =
        some (DLError.sizeMismatch a.size net.length)) ∧
    (∀ eh ah, (download sha net a dryrun w).2.2 =
        some (DLError.hashMismatch eh ah) → net.length = a.size) := by
  rcases download_shape sha net a dryrun w with ⟨tr, heq, hobs⟩ | ⟨w0, tr0, heq, -⟩
  · rw [heq]
    constructor
    · intro hmem
      rw [List.all_eq_true] at hobs
      exact absurd (hobs _ hmem) (by simp [isObservationOnly])
    · intro eh ah h
      exact absurd h (by simp)
  · rw [heq, fetchPhase_false]
    constructor
    · intro _ hs
      simp [hs]
    · intro eh ah h
      by_cases hs : net.length = a.size
      · exact hs
      · simp [hs] at h

/-- C4: whenever `download` raises an integrity error (size or hash
mismatch after the stream completed), the file just written is still the
cache entry of the final state, and the very last effect of the run is the
write — nothing (in particular no deletion) happens on the error path after
the file was written. -/
theorem c4_integrity_error_leaves_file_on_disk (sha : Bytes → String)
    (net : Bytes) (a : ArchiveInfo) (dryrun : Bool) (w : World) (e : DLError)
    (he : (download sha net a dryrun w).2.2 = some e) :
    lookupCache (download sha net a dryrun w).1 a.filename = some net ∧
    (download sha net a dryrun w).2.1.getLast? =
      some (Event.writeCacheFile a.filename) := by
  rcases download_shape sha net a dryrun w with ⟨tr, heq, -⟩ | ⟨w0, tr0, heq, -⟩
  · rw [heq] at he
    exact absurd he (by simp)
  · rw [heq, fetchPhase_false]
    refine ⟨lookup_setCache .., ?_⟩
    rw [List.getLast?_append_of_ne_nil _ (by simp)]
    rfl

/-- C10: when the cache file exists but its size already differs from the
expected size, the validity check classifies it as stale without ever
running `get_sha256` on it: no hash-read of the file occurs anywhere in the
run (the size conjunct short-circuits the hash conjunct). -/
theorem c10_size_mismatch_skips_hashing (sha : Bytes → String) (net : Bytes)
    (a : ArchiveInfo) (dryrun : Bool) (w : World) (c : Bytes)
    (hc : lookupCache w a.filename = some c) (hsz : c.length ≠ a.size) :
    Event.hashFile a.filename ∉ (download sha net a dryrun w).2.1 := by
  unfold download stalePath fetchPhase
  simp only [hc, hsz, if_false]
  cases dryrun with
  | true => simp
  | false =>
    by_cases hs : net.length = a.size
    · by_cases hh : sha net = a.sha256 <;> simp [hs, hh]
    · simp [hs]

theorem countPrints_restore_dry : countPrints (restore_dotnet_tools true) = 1 := rfl

theorem countPrints_update_dry : countPrints (update_submodules true) = 1 := rfl

theorem countPrints_nil : countPrints [] = 0 := rfl

theorem dryMainTrace_observationOnly (sha : Bytes → String) (p : Platform)
    (fl : Flags) (w : World) :
    (dryMainTrace sha p fl w).all isObservationOnly = true := by
  unfold dryMainTrace
  by_cases hc : fl.cache_only
  · simp only [hc, if_true]
    exact dryTraces_observationOnly ..
  · simp only [hc, Bool.false_eq_true, if_false, List.all_append,
      Bool.and_eq_true]
    have hr : (restore_dotnet_tools true).all isObservationOnly = true := rfl
    have hu : (update_submodules true).all isObservationOnly = true := rfl
    refine ⟨⟨⟨dryTraces_observationOnly .., ?_⟩, ?_⟩, ?_⟩
    · split
      · exact hr
      · rfl
    · split
      · exact extract_ninja_dryrun_observationOnly ..
      · rfl
    · split
      · exact hu
      · rfl

theorem countPrints_dryMainTrace (sha : Bytes → String) (p : Platform)
    (fl : Flags) (w : World) :
    countPrints (dryMainTrace sha p fl w) = intendedActions sha p fl w := by
  unfold dryMainTrace intendedActions
  by_cases hc : fl.cache_only
  · simp only [hc, if_true]
    exact countPrints_dryTraces ..
  · simp only [hc, Bool.false_eq_true, if_false, countPrints_append,
      countPrints_dryTraces]
    by_cases h1 : !fl.nowix && is_windows p <;>
      by_cases h2 : pyListMem NINJA_WIN (selectArchives p fl)
          || pyListMem NINJA_MAC (selectArchives p fl) <;>
      by_cases h3 : !fl.nosubmodules <;>
      simp [h1, h2, h3, countPrints_restore_dry, countPrints_update_dry,
        countPrints_nil, countPrints_extract_ninja_dryrun]

/-- C5: for every combination of the boolean flags with the dry-run flag
set, and every platform and initial state, the pipeline leaves the world
unchanged, finishes without error, produces only `print` output and
read-only cache-hash reads (no network access, no file deleted, written or
created, no directory created, no permission change, no subprocess), and
prints exactly one message per action the run would otherwise take
(`intendedActions`, the spec's enumeration of planned actions). -/
theorem c5_dryrun_is_pure_reporting (sha : Bytes → String)
    (net : String → Bytes) (p : Platform) (fl : Flags) (w : World)
    (hd : fl.dryrun = true) :
    (mainRun sha net p fl w).1 = w ∧
    (mainRun sha net p fl w).2.2 = none ∧
    (mainRun sha net p fl w).2.1.all isObservationOnly = true ∧
    countPrints (mainRun sha net p fl w).2.1 = intendedActions sha p fl w := by
  rw [mainRun_dryrun sha net p fl w hd]
  exact ⟨rfl, rfl, dryMainTrace_observationOnly .., countPrints_dryMainTrace ..⟩

/-- C6: when the cache-only flag is set the pipeline is exactly the
download/verification loop over the selected archives — the
secondary-toolchain restore, the extraction and the submodule sync are all
skipped, whatever the other flags are. -/
theorem c6_cache_only_stops_after_downloads (sha : Bytes → String)
    (net : String → Bytes) (p : Platform) (fl : Flags) (w : World)
    (h : fl.cache_only = true) :
    mainRun sha net p fl w =
      downloadList sha net (selectArchives p fl) fl.dryrun w := by
  simp only [mainRun]
  rcases hdl : downloadList sha net (selectArchives p fl) fl.dryrun w
    with ⟨w1, tr1, e⟩
  cases e <;> simp [h]

/-- C9: on a platform that is neither Windows nor macOS, `extract_ninja`
returns immediately, with no event at all (no message, no filesystem
effect) and the world untouched, for both values of the dry-run flag. -/
theorem c9_extract_noop_on_other_platforms (dryrun : Bool) (w : World) :
    extract_ninja Platform.other dryrun w = (w, []) := rfl

/-- A world whose extraction destination `third_party/ninja` already exists
with a historical entry, and whose cache holds some bytes for the Windows
ninja archive. -/
def wNinjaOld : World :=
  { cache := [("ninja-win.zip", [1])], ninjaDir := some ["old-tool"] }

/-- C7: evaluation at the failing input.  On Windows with a pre-existing
destination directory, the dry-run path announces the removal of the
destination (`shutil.rmtree`), but the real (non-dry-run) path performs no
removal: after extraction the destination still holds the historical entry
next to the extracted tool, so it is not fully replaced. -/
theorem c7_real_extraction_keeps_stale_contents :
    (extract_ninja Platform.windows false wNinjaOld).1.ninjaDir =
      some ["old-tool", "ninja.exe"] ∧
    (extract_ninja Platform.windows true wNinjaOld).2 =
      [Event.print rmtreeMsg, Event.print (extractMsg "ninja.exe" NINJA_WIN)] := by
  constructor <;> decide

/-- A concrete string-hash stand-in for CPython's `hash` on `str`. -/
def strHashT : String → Int := fun s => (s.length : Int)

/-- Two separately constructed records with the same expected SHA-256 but
different URLs (hence different filenames). -/
def archB1 : ArchiveInfo :=
  { url := "https://host/a/foo.zip", size := 10, sha256 := "deadbeef" }

/-- See `archB1`: same hash, different URL. -/
def archB2 : ArchiveInfo :=
  { url := "https://host/b/bar.zip", size := 10, sha256 := "deadbeef" }

/-- C8 counterexample: two records with the same expected SHA-256 (so equal
`__hash__` values) are nevertheless not treated as the same archive by the
membership check the orchestrator uses (Python list `in`, i.e. the
dataclass `__eq__`): neither is a member of a list containing the other. -/
theorem c8_counterexample_eq_is_not_hash_only :
    archB1.sha256 = archB2.sha256 ∧
    ArchiveInfo.pyHash strHashT archB1 = ArchiveInfo.pyHash strHashT archB2 ∧
    pyListMem archB1 [archB2] = false ∧
    pyListMem archB2 [archB1] = false := by
  refine ⟨rfl, rfl, ?_, ?_⟩ <;> decide

/-- C8 amended: the `__hash__` of `ArchiveInfo` is determined by the
content hash alone, so two records with the same expected SHA-256 always
have equal hash values; but the deduplication/membership checks used by the
orchestrator (list `in`, hence dataclass `__eq__`) compare all fields, so
records with the same hash and different URLs are not considered the same
archive. -/
theorem c8_hash_by_sha256_membership_by_fields (h : String → Int)
    (a b : ArchiveInfo) (hs : a.sha256 = b.sha256) (hu : a.url ≠ b.url) :
    ArchiveInfo.pyHash h a = ArchiveInfo.pyHash h b ∧
    pyListMem a [b] = false := by
  refine ⟨by simp [ArchiveInfo.pyHash, hs], ?_⟩
  have hb : (b.url == a.url) = false :=
    beq_eq_false_iff_ne.mpr (fun hh => hu hh.symm)
  simp [pyListMem, archiveEq, hb]

theorem c8_witness :
    ArchiveInfo.pyHash strHashT archB1 = ArchiveInfo.pyHash strHashT archB2 ∧
    pyListMem archB1 [archB2] = false :=
  c8_hash_by_sha256_membership_by_fields strHashT archB1 archB2 rfl (by decide)

/-- A toy stand-in for SHA-256 in the concrete witnesses: the two-byte
stream `[7, 7]` hashes to the expected digest, everything else does not. -/
def shaT : Bytes → String := fun b => if b == [7, 7] then "HH" else "XX"

/-- Network serving the two-byte stream `[7, 7]` for every URL. -/
def netT : String → Bytes := fun _ => [7, 7]

/-- A concrete archive expecting two bytes hashing to `"HH"`. -/
def archT : ArchiveInfo :=
  { url := "http://host/dir/a.zip", size := 2, sha256 := "HH" }

/-- Empty cache, no extraction destination. -/
def wEmptyT : World := { cache := [], ninjaDir := none }

/-- A cache holding a stale (wrong-size) entry for `archT`. -/
def wStaleT : World := { cache := [("a.zip", [5])], ninjaDir := none }

/-- A cache holding a valid entry for `archT`. -/
def wHitT : World := { cache := [("a.zip", [7, 7])], ninjaDir := none }

/-- Dry-run flags, everything else default. -/
def flDryT : Flags :=
  { dryrun := true, noninja := false, noqt := false, nowix := false,
    nosubmodules := false, cache_only := false }

/-- Cache-only flags with submodules enabled. -/
def flCacheT : Flags :=
  { dryrun := false, noninja := false, noqt := false, nowix := false,
    nosubmodules := false, cache_only := true }

theorem c1_witness :
    Event.unlink archT.filename ∈ (download shaT [7, 7] archT false wStaleT).2.1 ∧
    Event.netGet archT.url ∈ (download shaT [7, 7] archT false wStaleT).2.1 ∧
    ((download shaT [7, 7] archT false wStaleT).2.2 = none →
      lookupCache (download shaT [7, 7] archT false wStaleT).1 archT.filename =
        some [7, 7] ∧
      List.length ([7, 7] : Bytes) = archT.size ∧ shaT [7, 7] = archT.sha256) :=
  c1_stale_cache_deleted_and_redownloaded shaT [7, 7] archT wStaleT [5]
    (by decide) (Or.inl (by decide))

theorem c2_witness :
    download shaT [9] archT false wHitT =
      (wHitT, [Event.hashFile archT.filename], none) :=
  c2_cache_hit_no_effect shaT [9] archT false wHitT [7, 7]
    (by decide) (by decide) (by decide)

theorem c3_witness :
    (download shaT [5] archT false wEmptyT).2.2 =
      some (DLError.sizeMismatch archT.size (List.length ([5] : Bytes))) :=
  (c3_size_check_precedes_hash_check shaT [5] archT false wEmptyT).1
    (by decide) (by decide)

theorem c4_witness :
    lookupCache (download shaT [5] archT false wEmptyT).1 archT.filename =
      some [5] ∧
    (download shaT [5] archT false wEmptyT).2.1.getLast? =
      some (Event.writeCacheFile archT.filename) :=
  c4_integrity_error_leaves_file_on_disk shaT [5] archT false wEmptyT
    (DLError.sizeMismatch archT.size (List.length ([5] : Bytes))) (by decide)

theorem c5_witness :
    (mainRun shaT netT Platform.windows flDryT wEmptyT).1 = wEmptyT ∧
    (mainRun shaT netT Platform.windows flDryT wEmptyT).2.2 = none ∧
    (mainRun shaT netT Platform.windows flDryT wEmptyT).2.1.all
      isObservationOnly = true ∧
    countPrints (mainRun shaT netT Platform.windows flDryT wEmptyT).2.1 =
      intendedActions shaT Platform.windows flDryT wEmptyT :=
  c5_dryrun_is_pure_reporting shaT netT Platform.windows flDryT wEmptyT rfl

theorem c6_witness :
    mainRun shaT netT Platform.windows flCacheT wEmptyT =
      downloadList shaT netT (selectArchives Platform.windows flCacheT)
        flCacheT.dryrun wEmptyT :=
  c6_cache_only_stops_after_downloads shaT netT Platform.windows flCacheT
    wEmptyT rfl

theorem c10_witness :
    Event.hashFile archT.filename ∉ (download shaT [7, 7] archT false wStaleT).2.1 :=
  c10_size_mismatch_skips_hashing shaT [7, 7] archT false wStaleT [5]
    (by decide) (by decide)
